import Mathlib

/-!
Shallow embedding of the contact-assistant module (src/module_2.1.py): field
validators (Phone, Birthday, Name), Record phone operations, the AddressBook
mapping and its upcoming-birthday query, and a structural model of the
serialization round trip. Stateful Python methods become functions returning
the new state together with the raised error, when one is raised; machine
dates are modelled as records of natural numbers ordered the way Python
datetime orders them.
-/

/-- Errors raised by the module. Each constructor stands for one raise site of
the source, with the Python exception class and message it carries; the spec's
taxonomy calls the first two ValidationError and the last two NotFoundError. -/
inductive PyErr where
  /-- ValueError "Phone number must be 10 digits." (Phone constructor, src 14-15) -/
  | phoneValidation
  /-- ValueError "Invalid date format. Use DD.MM.YYYY" (Birthday constructor, src 22-23) -/
  | birthdayValidation
  /-- ValueError "Phone not found." (remove_phone src 36, edit_phone src 43) -/
  | phoneNotFound
  /-- KeyError "Contact not found." (AddressBook.delete, src 64) -/
  | contactNotFound
deriving DecidableEq

instance {ε α : Type} [DecidableEq ε] [DecidableEq α] : DecidableEq (Except ε α) := fun x y =>
  match x, y with
  | Except.error e, Except.error f =>
    if h : e = f then Decidable.isTrue (congrArg Except.error h)
    else Decidable.isFalse (fun c => h (by injection c))
  | Except.error _, Except.ok _ => Decidable.isFalse (fun c => Except.noConfusion c)
  | Except.ok _, Except.error _ => Decidable.isFalse (fun c => Except.noConfusion c)
  | Except.ok a, Except.ok b =>
    if h : a = b then Decidable.isTrue (congrArg Except.ok h)
    else Decidable.isFalse (fun c => h (by injection c))

/-- Python str.isdigit on one character. On the Latin-1 range this is exact:
there the characters Python counts as digits are the ASCII decimal digits
together with the superscript digits U+00B9, U+00B2, U+00B3 (Numeric Type
Digit). Python accepts further digit characters above Latin-1 that this
development never uses. -/
def pyIsdigitChar (c : Char) : Bool :=
  (48 ≤ c.toNat && c.toNat ≤ 57) || c == '¹' || c == '²' || c == '³'

/-- Python str.isdigit on a whole string: false for the empty string, else
true exactly when every character is a digit character. -/
def strIsdigit (s : String) : Bool :=
  !s.isEmpty && s.data.all pyIsdigitChar

/-- Phone.__init__ (src 13-16): raise ValueError unless value.isdigit() and
len(value) == 10; otherwise Field.__init__ stores the value verbatim. -/
def phoneInit (value : String) : Except PyErr String :=
  if !strIsdigit value || value.length != 10 then Except.error PyErr.phoneValidation
  else Except.ok value

/-- Name construction (src 10-11): class Name(Field) adds nothing, and
Field.__init__ stores the value unconditionally, so it never raises. -/
def nameInit (value : String) : Except PyErr String :=
  Except.ok value

/-- One contact (class Record, src 24-50): the stored name value, the phone
values in list order, and the stored birthday value when one is set. -/
structure Record where
  name : String
  phones : List String
  birthday : Option String
deriving DecidableEq

/-- Record.__init__ (src 25-28): Name(name) stores the string verbatim with no
validation; the phone list starts empty and the birthday unset. -/
def recordInit (name : String) : Record :=
  { name := name, phones := [], birthday := none }

/-- Record.find_phone (src 44-48): first phone in list order whose value
equals the argument, else none. -/
def findPhone (phones : List String) (phone : String) : Option String :=
  phones.find? (fun p => p == phone)

/-- Record.add_phone (src 29-30): Phone(phone) is constructed first (and may
raise, leaving the list untouched), then appended. -/
def addPhoneRun (phones : List String) (phone : String) : List String × Option PyErr :=
  match phoneInit phone with
  | Except.error e => (phones, some e)
  | Except.ok v => (phones ++ [v], none)

/-- Record.remove_phone (src 31-36): find_phone, then list.remove of the found
object, which deletes the first occurrence of that value; ValueError "Phone
not found." when absent. -/
def removePhoneRun (phones : List String) (phone : String) : List String × Option PyErr :=
  match findPhone phones phone with
  | some _ => (phones.erase phone, none)
  | none => (phones, some PyErr.phoneNotFound)

/-- Record.edit_phone (src 37-43): find old; when present, add_phone new (which
validates before mutating) and then remove_phone old; when absent, ValueError
"Phone not found.". An exception propagates with whatever state the record has
at that point. -/
def editPhoneRun (phones : List String) (old new : String) : List String × Option PyErr :=
  match findPhone phones old with
  | none => (phones, some PyErr.phoneNotFound)
  | some _ =>
    match addPhoneRun phones new with
    | (ps, some e) => (ps, some e)
    | (ps, none) => removePhoneRun ps old

/-- Record.add_birthday (src 49-50): Birthday(birthday) validates (raising on
failure, birthday unchanged), then overwrites the single birthday field. -/
def addBirthdayRun (r : Record) (birthday : String) (birthdayMk : String → Except PyErr String) :
    Record × Option PyErr :=
  match birthdayMk birthday with
  | Except.error e => (r, some e)
  | Except.ok v => ({ r with birthday := some v }, none)

/-- Numeric value of an ASCII digit character. -/
def digitVal (c : Char) : Nat :=
  c.toNat - 48

/-- Whether a character is one of the ASCII decimal digits 0-9. The regex
digit class in Python also matches decimal digits beyond ASCII; the parsers
below therefore model strptime exactly on ASCII input, which is all this
development uses. -/
def isAsciiDigit (c : Char) : Bool :=
  48 ≤ c.toNat && c.toNat ≤ 57

/-- The day pattern Python strptime compiles for the directive of a day of
month: the regex alternatives 3[01], [12] followed by a digit, 0[1-9], [1-9],
tried in that order (CPython TimeRE). Returns the parsed value and the
remaining characters. The alternatives consume two digits or one, and a
one-digit match leaves a non-digit next, so the greedy order is the regex
match. -/
def matchDay : List Char → Option (Nat × List Char)
  | c1 :: c2 :: rest =>
    if c1 == '3' && (c2 == '0' || c2 == '1') then some (30 + digitVal c2, rest)
    else if (c1 == '1' || c1 == '2') && isAsciiDigit c2 then
      some (10 * digitVal c1 + digitVal c2, rest)
    else if c1 == '0' && (49 ≤ c2.toNat && c2.toNat ≤ 57) then some (digitVal c2, rest)
    else if 49 ≤ c1.toNat && c1.toNat ≤ 57 then some (digitVal c1, c2 :: rest)
    else none
  | [c1] => if 49 ≤ c1.toNat && c1.toNat ≤ 57 then some (digitVal c1, []) else none
  | [] => none

/-- The month pattern Python strptime compiles: the regex alternatives 1[0-2],
0[1-9], [1-9], tried in that order. -/
def matchMonth : List Char → Option (Nat × List Char)
  | c1 :: c2 :: rest =>
    if c1 == '1' && (48 ≤ c2.toNat && c2.toNat ≤ 50) then some (10 + digitVal c2, rest)
    else if c1 == '0' && (49 ≤ c2.toNat && c2.toNat ≤ 57) then some (digitVal c2, rest)
    else if 49 ≤ c1.toNat && c1.toNat ≤ 57 then some (digitVal c1, c2 :: rest)
    else none
  | [c1] => if 49 ≤ c1.toNat && c1.toNat ≤ 57 then some (digitVal c1, []) else none
  | [] => none

/-- The year pattern Python strptime compiles for a full year: exactly four
digit characters. -/
def matchYear : List Char → Option (Nat × List Char)
  | c1 :: c2 :: c3 :: c4 :: rest =>
    if isAsciiDigit c1 && isAsciiDigit c2 && isAsciiDigit c3 && isAsciiDigit c4 then
      some (((digitVal c1 * 10 + digitVal c2) * 10 + digitVal c3) * 10 + digitVal c4, rest)
    else none
  | _ => none

/-- Whether a year is a leap year, as Python's calendar arithmetic decides. -/
def isLeap (y : Nat) : Bool :=
  y % 4 == 0 && (y % 100 != 0 || y % 400 == 0)

/-- Days in a month of a year; 0 for a month outside 1..12 (never produced by
the parsers, which keep months in 1..12). -/
def daysInMonth (y m : Nat) : Nat :=
  match m with
  | 1 => 31
  | 2 => if isLeap y then 29 else 28
  | 3 => 31
  | 4 => 30
  | 5 => 31
  | 6 => 30
  | 7 => 31
  | 8 => 31
  | 9 => 30
  | 10 => 31
  | 11 => 30
  | 12 => 31
  | _ => 0

/-- datetime.strptime(value, day.month.year format) as the module uses it
(src 20 and src 71): match the compiled regex against the whole string, then
build the date, which raises unless the year is at least 1 (at most 9999 is
forced by the four-digit year) and the day exists in that month of that year.
Returns (day, month, year), or none when Python raises ValueError. -/
def strptimeDMY (s : String) : Option (Nat × Nat × Nat) :=
  match matchDay s.data with
  | some (d, '.' :: r1) =>
    match matchMonth r1 with
    | some (m, '.' :: r2) =>
      match matchYear r2 with
      | some (y, []) => if 1 ≤ y ∧ d ≤ daysInMonth y m then some (d, m, y) else none
      | _ => none
    | _ => none
  | _ => none

/-- Birthday.__init__ (src 18-23): datetime.strptime(value, the day.month.year
format) must succeed, else ValueError "Invalid date format. Use DD.MM.YYYY";
on success the original string is stored, not the parsed date. -/
def birthdayInit (value : String) : Except PyErr String :=
  match strptimeDMY value with
  | some _ => Except.ok value
  | none => Except.error PyErr.birthdayValidation

/-- A Python datetime as the module uses it: calendar fields plus the time of
day (microseconds since midnight, everything finer than the day collapsed into
one field). Python datetime comparison orders (year, month, day, time of day)
lexicographically. A datetime parsed by strptime has time of day 0; the one
returned by datetime.today() carries the wall-clock time of the call. -/
structure PyDateTime where
  year : Nat
  month : Nat
  day : Nat
  tod : Nat
deriving DecidableEq

/-- Python datetime order (at most): lexicographic on year, month, day, time
of day. -/
def dtLe (a b : PyDateTime) : Prop :=
  a.year < b.year ∨ (a.year = b.year ∧ (a.month < b.month ∨ (a.month = b.month ∧
    (a.day < b.day ∨ (a.day = b.day ∧ a.tod ≤ b.tod)))))

instance (a b : PyDateTime) : Decidable (dtLe a b) := by
  unfold dtLe; exact inferInstance

/-- Strict order on the calendar day alone, ignoring the time of day. -/
def dateLt (a b : PyDateTime) : Prop :=
  a.year < b.year ∨ (a.year = b.year ∧ (a.month < b.month ∨ (a.month = b.month ∧ a.day < b.day)))

instance (a b : PyDateTime) : Decidable (dateLt a b) := by
  unfold dateLt; exact inferInstance

/-- Same calendar day, ignoring the time of day. -/
def dateEq (a b : PyDateTime) : Prop :=
  a.year = b.year ∧ a.month = b.month ∧ a.day = b.day

instance (a b : PyDateTime) : Decidable (dateEq a b) := by
  unfold dateEq; exact inferInstance

/-- Order on the calendar day alone, ignoring the time of day. -/
def dateLe (a b : PyDateTime) : Prop :=
  dateLt a b ∨ dateEq a b

instance (a b : PyDateTime) : Decidable (dateLe a b) := by
  unfold dateLe; exact inferInstance

/-- The calendar day after a given one, rolling over months and years. -/
def nextDay (d : PyDateTime) : PyDateTime :=
  if d.day < daysInMonth d.year d.month then { d with day := d.day + 1 }
  else if d.month < 12 then { d with month := d.month + 1, day := 1 }
  else { d with year := d.year + 1, month := 1, day := 1 }

/-- datetime plus a timedelta of whole days (src 67): the calendar day moves
forward, the time of day is unchanged. -/
def addDays : Nat → PyDateTime → PyDateTime
  | 0, d => d
  | n + 1, d => addDays n (nextDay d)

/-- datetime.replace with a new year (src 72): rebuilds the datetime with the
year swapped, re-validating the calendar fields; raises ValueError (modelled
none) when the day does not exist in that month of the new year - February 29
mapped onto a non-leap year - or the year is outside Python's 1..9999. -/
def replaceYear (d : PyDateTime) (y : Nat) : Option PyDateTime :=
  if 1 ≤ y ∧ y ≤ 9999 ∧ 1 ≤ d.day ∧ d.day ≤ daysInMonth y d.month then some { d with year := y }
  else none

/-- Nat rendered in decimal, padded to two digits, as strftime renders days
and months. -/
def pad2 (n : Nat) : String :=
  if n < 10 then "0" ++ toString n else toString n

/-- strftime with the day.month.year format (src 74): zero-padded day and
month, the year in full. -/
def strftimeDMY (d : PyDateTime) : String :=
  pad2 d.day ++ "." ++ pad2 d.month ++ "." ++ toString d.year

/-- The address book (class AddressBook, src 55-77): the UserDict data mapping
as an association list in insertion order, which is how Python dicts iterate. -/
abbrev AddressBook := List (String × Record)

/-- AddressBook.find (src 58-59): dict get with default none. -/
def bookFind (book : AddressBook) (name : String) : Option Record :=
  (book.find? (fun e => e.1 == name)).map (fun e => e.2)

/-- AddressBook.add_record (src 56-57): dict assignment keyed by the record's
own name value; an existing key keeps its position and gets the new record, a
new key is appended. -/
def addRecord (book : AddressBook) (r : Record) : AddressBook :=
  if book.any (fun e => e.1 == r.name) then
    book.map (fun e => if e.1 == r.name then (e.1, r) else e)
  else book ++ [(r.name, r)]

/-- AddressBook.delete (src 60-64): del the entry when the name is a key, else
KeyError "Contact not found.". -/
def deleteRun (book : AddressBook) (name : String) : AddressBook × Option PyErr :=
  if book.any (fun e => e.1 == name) then (book.eraseP (fun e => e.1 == name), none)
  else (book, some PyErr.contactNotFound)

/-- The loop body of AddressBook.get_upcoming_birthdays (src 69-74) over the
dict values in order: skip records without a birthday; re-parse the stored
birthday string (raising, modelled none, if it no longer parses); map it onto
today's year with replace (raising for February 29 in a non-leap year); keep
the record when today is at most the occurrence and the occurrence at most
next week, compared as full datetimes. -/
def upcomingGo (today nextWeek : PyDateTime) : List Record → Option (List (String × String))
  | [] => some []
  | r :: rest =>
    match r.birthday with
    | none => upcomingGo today nextWeek rest
    | some b =>
      match strptimeDMY b with
      | none => none
      | some (d, m, y) =>
        match replaceYear (PyDateTime.mk y m d 0) today.year with
        | none => none
        | some occ =>
          if dtLe today occ ∧ dtLe occ nextWeek then
            (upcomingGo today nextWeek rest).map (fun out => (r.name, strftimeDMY occ) :: out)
          else upcomingGo today nextWeek rest

/-- AddressBook.get_upcoming_birthdays (src 65-75). Python reads today from
datetime.today(), the ambient clock with its wall-clock time of day; the model
takes that datetime as an argument. next_week is today plus a timedelta of 7
days. Returns the list of (name, formatted occurrence date) in dict order, or
none when the loop raises. -/
def getUpcomingBirthdays (book : AddressBook) (today : PyDateTime) :
    Option (List (String × String)) :=
  upcomingGo today (addDays 7 today) (book.map (fun e => e.2))

/-- Modelled from the spec: Assistant.save_data (src 103-105) delegates
serialization to Python's pickle, a library outside this repository whose byte
format the spec declares opaque; the spec requires only a value-equivalent
round trip, so the model encodes the dict entries structurally, key and record
fields in order. -/
def serializeBook (book : AddressBook) : List (String × String × List String × Option String) :=
  book.map (fun e => (e.1, e.2.name, e.2.phones, e.2.birthday))

/-- Modelled from the spec: Assistant.load_data (src 106-111) unpickles the
stored blob back into the AddressBook object graph; the model rebuilds each
dict entry from its encoded key and record fields. -/
def deserializeBook (blob : List (String × String × List String × Option String)) : AddressBook :=
  blob.map (fun t => (t.1, { name := t.2.1, phones := t.2.2.1, birthday := t.2.2.2 }))

/-- Decimal value of a digit string, most significant digit first. -/
def natOfDigits (cs : List Char) : Nat :=
  cs.foldl (fun acc c => 10 * acc + digitVal c) 0

/-- Characterization of the strings the day pattern accepts: a digit string of
one or two characters whose value is a day 1..31 - one unpadded digit 1-9, or
any two-digit form of 1..31, zero padding included. -/
def repDay (a : List Char) (d : Nat) : Prop :=
  a.all isAsciiDigit = true ∧ natOfDigits a = d ∧ (a.length = 1 ∨ a.length = 2) ∧
    1 ≤ d ∧ d ≤ 31

/-- Characterization of the strings the month pattern accepts: a digit string
of one or two characters whose value is a month 1..12. -/
def repMonth (b : List Char) (m : Nat) : Prop :=
  b.all isAsciiDigit = true ∧ natOfDigits b = m ∧ (b.length = 1 ∨ b.length = 2) ∧
    1 ≤ m ∧ m ≤ 12

/-- Characterization of the strings the year pattern accepts: exactly four
digit characters. -/
def repYear (c : List Char) (y : Nat) : Prop :=
  c.all isAsciiDigit = true ∧ natOfDigits c = y ∧ c.length = 4

instance (a : List Char) (d : Nat) : Decidable (repDay a d) := by
  unfold repDay; exact inferInstance

instance (b : List Char) (m : Nat) : Decidable (repMonth b m) := by
  unfold repMonth; exact inferInstance

instance (c : List Char) (y : Nat) : Decidable (repYear c y) := by
  unfold repYear; exact inferInstance

/-- What it takes for one record to contribute the output entry (n, s) on one
pass of the get_upcoming_birthdays loop: the record is named n, its birthday
parses, maps onto today's year, the occurrence lies in the datetime window,
and s is the formatted occurrence. -/
def upcomingHit (today nw : PyDateTime) (r : Record) (n s : String) : Prop :=
  r.name = n ∧ ∃ b d m y occ,
    r.birthday = some b ∧ strptimeDMY b = some (d, m, y) ∧
    replaceYear (PyDateTime.mk y m d 0) today.year = some occ ∧
    dtLe today occ ∧ dtLe occ nw ∧ s = strftimeDMY occ

/-! Helper lemmas shared by the claim theorems. -/

theorem findPhone_isSome_iff (phones : List String) (p : String) :
    (findPhone phones p).isSome ↔ p ∈ phones := by
  unfold findPhone
  rw [List.find?_isSome]
  constructor
  · rintro ⟨x, hx, hpx⟩
    exact beq_iff_eq.mp hpx ▸ hx
  · intro h
    exact ⟨p, h, beq_self_eq_true p⟩

theorem findPhone_eq_none (phones : List String) (p : String) (h : p ∉ phones) :
    findPhone phones p = none := by
  unfold findPhone
  rw [List.find?_eq_none]
  intro x hx hbx
  exact h (beq_iff_eq.mp hbx ▸ hx)

theorem bookFind_eraseP_key (book : AddressBook) (name : String)
    (hnd : (book.map (fun e => e.1)).Nodup) :
    bookFind (book.eraseP (fun e => e.1 == name)) name = none := by
  induction book with
  | nil => rfl
  | cons e rest ih =>
    rw [List.map_cons, List.nodup_cons] at hnd
    by_cases he : e.1 = name
    · rw [List.eraseP_cons_of_pos (by simpa using he)]
      unfold bookFind
      rw [List.find?_eq_none.mpr, Option.map_none']
      intro x hx hbx
      exact hnd.1 (by
        rw [List.mem_map]
        exact ⟨x, hx, by rw [beq_iff_eq.mp hbx, he]⟩)
    · rw [List.eraseP_cons_of_neg (by simpa using he)]
      unfold bookFind
      rw [List.find?_cons_of_neg _ (by simpa using he)]
      exact ih hnd.2

theorem bookFind_eraseP_ne (book : AddressBook) (name k : String) (hk : k ≠ name) :
    bookFind (book.eraseP (fun e => e.1 == name)) k = bookFind book k := by
  induction book with
  | nil => rfl
  | cons e rest ih =>
    by_cases he : e.1 = name
    · rw [List.eraseP_cons_of_pos (by simpa using he)]
      unfold bookFind
      rw [List.find?_cons_of_neg _ (by simp [he]; exact fun h => hk h.symm)]
    · rw [List.eraseP_cons_of_neg (by simpa using he)]
      by_cases hek : e.1 = k
      · unfold bookFind
        rw [List.find?_cons_of_pos _ (by simpa using hek),
          List.find?_cons_of_pos _ (by simpa using hek)]
      · unfold bookFind
        rw [List.find?_cons_of_neg _ (by simpa using hek),
          List.find?_cons_of_neg _ (by simpa using hek)]
        exact ih

/-! The claim theorems. -/

/-- C10: Name construction performs no validation: for every string, the empty
string included, Name(value) succeeds storing the value verbatim, and
Record(name) succeeds with that name, an empty phone list and no birthday; no
ValidationError is ever raised for a name. -/
theorem name_record_no_validation (value : String) :
    nameInit value = Except.ok value ∧ recordInit value = Record.mk value [] none :=
  ⟨rfl, rfl⟩

/-- C8: serialization round trip: deserializing the serialization of any
AddressBook yields a structurally identical book - the same keys in the same
order, and for each one the same name, the same phone list in the same order
and the same birthday value or absence. -/
theorem serialize_round_trip (book : AddressBook) :
    deserializeBook (serializeBook book) = book := by
  induction book with
  | nil => rfl
  | cons e rest ih =>
    show e :: deserializeBook (serializeBook rest) = e :: rest
    rw [ih]

/-- C9: get_upcoming_birthdays is not total over valid books: a book holding a
record whose birthday is February 29 of a leap year makes the call raise
(modelled none) when today's year is not a leap year, because replace fails to
map February 29 onto that year. -/
theorem upcoming_feb29_raises :
    getUpcomingBirthdays [("Bob", Record.mk "Bob" [] (some "29.02.2000"))]
      (PyDateTime.mk 2025 1 1 0) = none := by
  decide

/-- C2: when old is present and new validates, edit_phone appends new at the
tail and then removes the first occurrence of old from the extended list. -/
theorem editPhone_replaces (phones : List String) (old new : String)
    (hmem : old ∈ phones) (hval : phoneInit new = Except.ok new) :
    editPhoneRun phones old new = ((phones ++ [new]).erase old, none) := by
  obtain ⟨x, hx⟩ := Option.isSome_iff_exists.mp ((findPhone_isSome_iff phones old).mpr hmem)
  obtain ⟨y, hy⟩ := Option.isSome_iff_exists.mp
    ((findPhone_isSome_iff (phones ++ [new]) old).mpr (List.mem_append_left _ hmem))
  unfold editPhoneRun addPhoneRun
  rw [hx, hval]
  show removePhoneRun (phones ++ [new]) old = ((phones ++ [new]).erase old, none)
  unfold removePhoneRun
  rw [hy]

/-- C2 witness: the spec's example, via the theorem at a concrete input. -/
theorem editPhone_replaces_witness :
    editPhoneRun ["1111111111", "2222222222"] "1111111111" "3333333333" =
      ((["1111111111", "2222222222"] ++ ["3333333333"]).erase "1111111111", none) ∧
    (["1111111111", "2222222222"] ++ ["3333333333"]).erase "1111111111" =
      ["2222222222", "3333333333"] :=
  ⟨editPhone_replaces ["1111111111", "2222222222"] "1111111111" "3333333333"
    (by decide) (by decide), by decide⟩

/-- C3: edit_phone is atomic on failure: with old absent it reports the
not-found error and returns the phone list unchanged, and with old present but
new failing phone validation it reports the validation error and returns the
phone list unchanged - the validation happens before any mutation. -/
theorem editPhone_atomic (phones : List String) (old new : String) :
    (old ∉ phones → editPhoneRun phones old new = (phones, some PyErr.phoneNotFound)) ∧
    (old ∈ phones → phoneInit new = Except.error PyErr.phoneValidation →
      editPhoneRun phones old new = (phones, some PyErr.phoneValidation)) := by
  constructor
  · intro habs
    unfold editPhoneRun
    rw [findPhone_eq_none phones old habs]
  · intro hmem hbad
    obtain ⟨x, hx⟩ := Option.isSome_iff_exists.mp ((findPhone_isSome_iff phones old).mpr hmem)
    unfold editPhoneRun addPhoneRun
    rw [hx, hbad]

/-- C3 witness: both failure modes at concrete inputs, via the theorem. -/
theorem editPhone_atomic_witness :
    editPhoneRun ["1111111111"] "2222222222" "3333333333" =
      (["1111111111"], some PyErr.phoneNotFound) ∧
    editPhoneRun ["1111111111"] "1111111111" "123" =
      (["1111111111"], some PyErr.phoneValidation) :=
  ⟨(editPhone_atomic ["1111111111"] "2222222222" "3333333333").1 (by decide),
    (editPhone_atomic ["1111111111"] "1111111111" "123").2 (by decide) (by decide)⟩

theorem bookAny_iff (book : AddressBook) (name : String) :
    (book.any fun e => e.1 == name) = true ↔ name ∈ book.map (fun e => e.1) := by
  rw [List.any_eq_true]
  constructor
  · rintro ⟨x, hx, hbx⟩
    exact List.mem_map.mpr ⟨x, hx, beq_iff_eq.mp hbx⟩
  · intro h
    obtain ⟨x, hx, hfx⟩ := List.mem_map.mp h
    exact ⟨x, hx, by simpa using hfx⟩

/-- C7: on a book whose keys are distinct (the dict invariant), delete of an
absent name raises the contact-not-found error leaving the book unchanged,
and delete of a present name removes exactly that entry: its key no longer
resolves and every other key resolves as before. -/
theorem delete_spec (book : AddressBook) (name : String)
    (hnd : (book.map (fun e => e.1)).Nodup) :
    (name ∉ book.map (fun e => e.1) →
      deleteRun book name = (book, some PyErr.contactNotFound)) ∧
    (name ∈ book.map (fun e => e.1) →
      deleteRun book name = (book.eraseP (fun e => e.1 == name), none) ∧
      bookFind (book.eraseP (fun e => e.1 == name)) name = none ∧
      ∀ k, k ≠ name → bookFind (book.eraseP (fun e => e.1 == name)) k = bookFind book k) := by
  constructor
  · intro habs
    unfold deleteRun
    rw [if_neg (fun hc => habs ((bookAny_iff book name).mp hc))]
  · intro hpres
    refine ⟨?_, bookFind_eraseP_key book name hnd, fun k hk => bookFind_eraseP_ne book name k hk⟩
    unfold deleteRun
    rw [if_pos ((bookAny_iff book name).mpr hpres)]

/-- C7 witness: both branches at concrete books, via the theorem. -/
theorem delete_spec_witness :
    deleteRun [("A", recordInit "A"), ("B", recordInit "B")] "A" =
      ([("A", recordInit "A"), ("B", recordInit "B")].eraseP (fun e => e.1 == "A"), none) ∧
    deleteRun [("A", recordInit "A")] "Z" =
      ([("A", recordInit "A")], some PyErr.contactNotFound) :=
  ⟨((delete_spec [("A", recordInit "A"), ("B", recordInit "B")] "A" (by decide)).2
      (by decide)).1,
    (delete_spec [("A", recordInit "A")] "Z" (by decide)).1 (by decide)⟩

/-- C5 counterexample: a string of ten superscript-two characters, none of
which is a decimal digit (Char.isDigit, the decimal digits 0-9, is false on
all of them, and Unicode classes U+00B2 as No, not as a decimal digit), yet
Phone construction succeeds, because Python str.isdigit accepts superscript
digits. So construction succeeding does not imply the string consists of
decimal digit characters. -/
theorem phone_superscript_cex :
    phoneInit "²²²²²²²²²²" = Except.ok "²²²²²²²²²²" ∧
    "²²²²²²²²²²".length = 10 ∧
    "²²²²²²²²²²".data.all Char.isDigit = false := by
  decide

/-- C5 (amended): for strings of Latin-1 characters (where the model of
str.isdigit is exact), Phone construction succeeds - storing the string
verbatim - exactly when the length is 10 and every character is a digit in
Python's sense, which admits the superscript digits besides the decimal
digits 0-9; in every other case it fails with the validation error. -/
theorem phoneInit_characterization (s : String)
    (_hlatin : s.data.all (fun c => c.toNat ≤ 255) = true) :
    (phoneInit s = Except.ok s ↔ s.length = 10 ∧ s.data.all pyIsdigitChar = true) ∧
    (phoneInit s ≠ Except.ok s → phoneInit s = Except.error PyErr.phoneValidation) := by
  by_cases h10 : s.length = 10
  · have hemp : s.isEmpty = false := by
      cases hE : s.isEmpty
      · rfl
      · rw [(String.isEmpty_iff s).mp hE] at h10
        exact absurd h10 (by decide)
    by_cases hall : s.data.all pyIsdigitChar = true
    · have hok : phoneInit s = Except.ok s := by
        unfold phoneInit strIsdigit
        rw [if_neg]
        simp [hemp, hall, h10]
      exact ⟨⟨fun _ => ⟨h10, hall⟩, fun _ => hok⟩, fun hne => absurd hok hne⟩
    · rw [Bool.not_eq_true] at hall
      have herr : phoneInit s = Except.error PyErr.phoneValidation := by
        unfold phoneInit strIsdigit
        rw [if_pos]
        simp [hall]
      refine ⟨⟨fun h => absurd (herr.symm.trans h) (by simp), fun h => ?_⟩, fun _ => herr⟩
      rw [h.2] at hall
      exact absurd hall (by decide)
  · have herr : phoneInit s = Except.error PyErr.phoneValidation := by
      unfold phoneInit strIsdigit
      rw [if_pos]
      simp [bne_iff_ne, h10]
    exact ⟨⟨fun h => absurd (herr.symm.trans h) (by simp), fun h => absurd h.1 h10⟩,
      fun _ => herr⟩

/-- C5 witness: the characterization applied at concrete inputs, one valid
phone accepted and one short string rejected. -/
theorem phoneInit_characterization_witness :
    phoneInit "0123456789" = Except.ok "0123456789" ∧
    phoneInit "123" = Except.error PyErr.phoneValidation :=
  ⟨(phoneInit_characterization "0123456789" (by decide)).1.mpr (by decide),
    (phoneInit_characterization "123" (by decide)).2 (by decide)⟩

theorem char_toNat_inj {a b : Char} (h : a.toNat = b.toNat) : a = b :=
  Char.ext (UInt32.ext h)

theorem natOfDigits_one (c : Char) : natOfDigits [c] = digitVal c := by
  simp [natOfDigits]

theorem natOfDigits_two (c1 c2 : Char) :
    natOfDigits [c1, c2] = 10 * digitVal c1 + digitVal c2 := by
  simp [natOfDigits]

theorem all_digits_one (c : Char) :
    [c].all isAsciiDigit = true ↔ 48 ≤ c.toNat ∧ c.toNat ≤ 57 := by
  simp [isAsciiDigit]

theorem all_digits_two (c1 c2 : Char) :
    [c1, c2].all isAsciiDigit = true ↔
      (48 ≤ c1.toNat ∧ c1.toNat ≤ 57) ∧ 48 ≤ c2.toNat ∧ c2.toNat ≤ 57 := by
  simp [isAsciiDigit, and_assoc]

theorem toNat_of_eq {c c0 : Char} (h : c = c0) : c.toNat = c0.toNat :=
  congrArg Char.toNat h

theorem matchDay_sound {cs rest : List Char} {d : Nat}
    (h : matchDay cs = some (d, rest)) : ∃ a, cs = a ++ rest ∧ repDay a d := by
  match cs with
  | [] => exact absurd h (by simp [matchDay])
  | [c1] =>
    rw [matchDay] at h
    split_ifs at h with h1
    · simp only [Option.some.injEq, Prod.mk.injEq] at h
      obtain ⟨rfl, rfl⟩ := h
      simp only [Bool.and_eq_true, decide_eq_true_eq] at h1
      refine ⟨[c1], by simp, (all_digits_one c1).mpr (by omega), natOfDigits_one c1,
        Or.inl rfl, ?_, ?_⟩ <;> (unfold digitVal; omega)
  | c1 :: c2 :: cs' =>
    rw [matchDay] at h
    split_ifs at h with h1 h2 h3 h4
    · simp only [Option.some.injEq, Prod.mk.injEq] at h
      obtain ⟨rfl, rfl⟩ := h
      simp only [Bool.and_eq_true, Bool.or_eq_true, beq_iff_eq] at h1
      have e1 : c1.toNat = 51 := (toNat_of_eq h1.1).trans (by decide)
      have e2 : c2.toNat = 48 ∨ c2.toNat = 49 := by
        rcases h1.2 with h | h
        · exact Or.inl ((toNat_of_eq h).trans (by decide))
        · exact Or.inr ((toNat_of_eq h).trans (by decide))
      refine ⟨[c1, c2], rfl, (all_digits_two c1 c2).mpr (by omega), ?_, Or.inr rfl, ?_, ?_⟩
      · rw [natOfDigits_two]
        unfold digitVal
        omega
      · unfold digitVal
        omega
      · unfold digitVal
        omega
    · simp only [Option.some.injEq, Prod.mk.injEq] at h
      obtain ⟨rfl, rfl⟩ := h
      simp only [Bool.and_eq_true, Bool.or_eq_true, beq_iff_eq] at h2
      have e1 : c1.toNat = 49 ∨ c1.toNat = 50 := by
        rcases h2.1 with h | h
        · exact Or.inl ((toNat_of_eq h).trans (by decide))
        · exact Or.inr ((toNat_of_eq h).trans (by decide))
      have e2 : 48 ≤ c2.toNat ∧ c2.toNat ≤ 57 := by
        have := h2.2
        unfold isAsciiDigit at this
        simp only [Bool.and_eq_true, decide_eq_true_eq] at this
        exact this
      refine ⟨[c1, c2], rfl, (all_digits_two c1 c2).mpr (by omega), natOfDigits_two c1 c2,
        Or.inr rfl, ?_, ?_⟩ <;> (unfold digitVal; omega)
    · simp only [Option.some.injEq, Prod.mk.injEq] at h
      obtain ⟨rfl, rfl⟩ := h
      simp only [Bool.and_eq_true, decide_eq_true_eq, beq_iff_eq] at h3
      have e1 : c1.toNat = 48 := (toNat_of_eq h3.1).trans (by decide)
      have e2 : 49 ≤ c2.toNat ∧ c2.toNat ≤ 57 := h3.2
      refine ⟨[c1, c2], rfl, (all_digits_two c1 c2).mpr (by omega), ?_, Or.inr rfl, ?_, ?_⟩
      · rw [natOfDigits_two]
        unfold digitVal
        omega
      · unfold digitVal
        omega
      · unfold digitVal
        omega
    · simp only [Option.some.injEq, Prod.mk.injEq] at h
      obtain ⟨rfl, rfl⟩ := h
      simp only [Bool.and_eq_true, decide_eq_true_eq] at h4
      refine ⟨[c1], rfl, (all_digits_one c1).mpr (by omega), natOfDigits_one c1,
        Or.inl rfl, ?_, ?_⟩ <;> (unfold digitVal; omega)

theorem matchDay_complete {a : List Char} {d : Nat} (h : repDay a d) (u : List Char) :
    matchDay (a ++ '.' :: u) = some (d, '.' :: u) := by
  obtain ⟨hdig, hval, hlen, hlo, hhi⟩ := h
  match a with
  | [] => simp at hlen
  | [c1] =>
    have hb := (all_digits_one c1).mp hdig
    rw [natOfDigits_one] at hval
    unfold digitVal at hval
    have hl49 : 49 ≤ c1.toNat := by omega
    rw [List.cons_append, List.nil_append, matchDay]
    rw [if_neg (by rw [show (('.' == '0') || ('.' == '1')) = false from by decide,
      Bool.and_false]; exact Bool.false_ne_true)]
    rw [if_neg (by rw [show isAsciiDigit '.' = false from by decide,
      Bool.and_false]; exact Bool.false_ne_true)]
    rw [if_neg (by rw [show decide (49 ≤ Char.toNat '.') = false from by decide,
      Bool.false_and, Bool.and_false]; exact Bool.false_ne_true)]
    rw [if_pos (by rw [decide_eq_true hl49, decide_eq_true hb.2]; try rfl)]
    simp only [Option.some.injEq, Prod.mk.injEq]
    exact ⟨by unfold digitVal; omega, trivial⟩
  | [c1, c2] =>
    have hb := (all_digits_two c1 c2).mp hdig
    have hd2 : isAsciiDigit c2 = true := by
      unfold isAsciiDigit
      rw [decide_eq_true hb.2.1, decide_eq_true hb.2.2]
      try rfl
    rw [natOfDigits_two] at hval
    unfold digitVal at hval
    have hc1 : c1.toNat = 48 ∨ c1.toNat = 49 ∨ c1.toNat = 50 ∨ c1.toNat = 51 := by omega
    rw [List.cons_append, List.cons_append, List.nil_append, matchDay]
    rcases hc1 with e1 | e1 | e1 | e1
    · obtain rfl : c1 = '0' := char_toNat_inj (by rw [e1]; decide)
      have h49 : 49 ≤ c2.toNat := by omega
      rw [if_neg (by rw [show (('0' == '3') : Bool) = false from by decide,
        Bool.false_and]; exact Bool.false_ne_true)]
      rw [if_neg (by rw [show ((('0' == '1') || ('0' == '2')) : Bool) = false from by decide,
        Bool.false_and]; exact Bool.false_ne_true)]
      rw [if_pos (by rw [show (('0' == '0') : Bool) = true from by decide,
        decide_eq_true h49, decide_eq_true hb.2.2, Bool.and_self, Bool.true_and])]
      simp only [Option.some.injEq, Prod.mk.injEq]
      exact ⟨by unfold digitVal; omega, trivial⟩
    · obtain rfl : c1 = '1' := char_toNat_inj (by rw [e1]; decide)
      rw [if_neg (by rw [show (('1' == '3') : Bool) = false from by decide,
        Bool.false_and]; exact Bool.false_ne_true)]
      rw [if_pos (by rw [show ((('1' == '1') || ('1' == '2')) : Bool) = true from by decide,
        Bool.true_and, hd2])]
      simp only [Option.some.injEq, Prod.mk.injEq]
      exact ⟨by unfold digitVal; omega, trivial⟩
    · obtain rfl : c1 = '2' := char_toNat_inj (by rw [e1]; decide)
      rw [if_neg (by rw [show (('2' == '3') : Bool) = false from by decide,
        Bool.false_and]; exact Bool.false_ne_true)]
      rw [if_pos (by rw [show ((('2' == '1') || ('2' == '2')) : Bool) = true from by decide,
        Bool.true_and, hd2])]
      simp only [Option.some.injEq, Prod.mk.injEq]
      exact ⟨by unfold digitVal; omega, trivial⟩
    · obtain rfl : c1 = '3' := char_toNat_inj (by rw [e1]; decide)
      have hc2 : c2.toNat = 48 ∨ c2.toNat = 49 := by omega
      have hc2b : (c2 == '0' || c2 == '1') = true := by
        rcases hc2 with e2 | e2
        · obtain rfl : c2 = '0' := char_toNat_inj (by rw [e2]; decide)
          decide
        · obtain rfl : c2 = '1' := char_toNat_inj (by rw [e2]; decide)
          decide
      rw [if_pos (by rw [show (('3' == '3') : Bool) = true from by decide, Bool.true_and,
        hc2b])]
      simp only [Option.some.injEq, Prod.mk.injEq]
      exact ⟨by unfold digitVal; omega, trivial⟩
  | c1 :: c2 :: c3 :: a2 => simp at hlen

theorem matchMonth_sound {cs rest : List Char} {m : Nat}
    (h : matchMonth cs = some (m, rest)) : ∃ b, cs = b ++ rest ∧ repMonth b m := by
  match cs with
  | [] => exact absurd h (by simp [matchMonth])
  | [c1] =>
    rw [matchMonth] at h
    split_ifs at h with h1
    · simp only [Option.some.injEq, Prod.mk.injEq] at h
      obtain ⟨rfl, rfl⟩ := h
      simp only [Bool.and_eq_true, decide_eq_true_eq] at h1
      refine ⟨[c1], by simp, (all_digits_one c1).mpr (by omega), natOfDigits_one c1,
        Or.inl rfl, ?_, ?_⟩ <;> (unfold digitVal; omega)
  | c1 :: c2 :: cs' =>
    rw [matchMonth] at h
    split_ifs at h with h1 h2 h3
    · simp only [Option.some.injEq, Prod.mk.injEq] at h
      obtain ⟨rfl, rfl⟩ := h
      simp only [Bool.and_eq_true, decide_eq_true_eq, beq_iff_eq] at h1
      have e1 : c1.toNat = 49 := (toNat_of_eq h1.1).trans (by decide)
      have e2 : 48 ≤ c2.toNat ∧ c2.toNat ≤ 50 := h1.2
      refine ⟨[c1, c2], rfl, (all_digits_two c1 c2).mpr (by omega), ?_, Or.inr rfl, ?_, ?_⟩
      · rw [natOfDigits_two]
        unfold digitVal
        omega
      · unfold digitVal
        omega
      · unfold digitVal
        omega
    · simp only [Option.some.injEq, Prod.mk.injEq] at h
      obtain ⟨rfl, rfl⟩ := h
      simp only [Bool.and_eq_true, decide_eq_true_eq, beq_iff_eq] at h2
      have e1 : c1.toNat = 48 := (toNat_of_eq h2.1).trans (by decide)
      have e2 : 49 ≤ c2.toNat ∧ c2.toNat ≤ 57 := h2.2
      refine ⟨[c1, c2], rfl, (all_digits_two c1 c2).mpr (by omega), ?_, Or.inr rfl, ?_, ?_⟩
      · rw [natOfDigits_two]
        unfold digitVal
        omega
      · unfold digitVal
        omega
      · unfold digitVal
        omega
    · simp only [Option.some.injEq, Prod.mk.injEq] at h
      obtain ⟨rfl, rfl⟩ := h
      simp only [Bool.and_eq_true, decide_eq_true_eq] at h3
      refine ⟨[c1], rfl, (all_digits_one c1).mpr (by omega), natOfDigits_one c1,
        Or.inl rfl, ?_, ?_⟩ <;> (unfold digitVal; omega)

theorem matchMonth_complete {b : List Char} {m : Nat} (h : repMonth b m) (u : List Char) :
    matchMonth (b ++ '.' :: u) = some (m, '.' :: u) := by
  obtain ⟨hdig, hval, hlen, hlo, hhi⟩ := h
  match b with
  | [] => simp at hlen
  | [c1] =>
    have hb := (all_digits_one c1).mp hdig
    rw [natOfDigits_one] at hval
    unfold digitVal at hval
    have hl49 : 49 ≤ c1.toNat := by omega
    rw [List.cons_append, List.nil_append, matchMonth]
    rw [if_neg (by rw [show (decide (48 ≤ Char.toNat '.')) = false from by decide,
      Bool.false_and, Bool.and_false]; exact Bool.false_ne_true)]
    rw [if_neg (by rw [show (decide (49 ≤ Char.toNat '.')) = false from by decide,
      Bool.false_and, Bool.and_false]; exact Bool.false_ne_true)]
    rw [if_pos (by rw [decide_eq_true hl49, decide_eq_true hb.2]; try rfl)]
    simp only [Option.some.injEq, Prod.mk.injEq]
    exact ⟨by unfold digitVal; omega, trivial⟩
  | [c1, c2] =>
    have hb := (all_digits_two c1 c2).mp hdig
    rw [natOfDigits_two] at hval
    unfold digitVal at hval
    have hc1 : c1.toNat = 48 ∨ c1.toNat = 49 := by omega
    rw [List.cons_append, List.cons_append, List.nil_append, matchMonth]
    rcases hc1 with e1 | e1
    · obtain rfl : c1 = '0' := char_toNat_inj (by rw [e1]; decide)
      have h49 : 49 ≤ c2.toNat := by omega
      rw [if_neg (by rw [show (('0' == '1') : Bool) = false from by decide,
        Bool.false_and]; exact Bool.false_ne_true)]
      rw [if_pos (by rw [show (('0' == '0') : Bool) = true from by decide,
        decide_eq_true h49, decide_eq_true hb.2.2, Bool.and_self, Bool.true_and])]
      simp only [Option.some.injEq, Prod.mk.injEq]
      exact ⟨by unfold digitVal; omega, trivial⟩
    · obtain rfl : c1 = '1' := char_toNat_inj (by rw [e1]; decide)
      have h50 : c2.toNat ≤ 50 := by omega
      rw [if_pos (by rw [show (('1' == '1') : Bool) = true from by decide,
        decide_eq_true hb.2.1, decide_eq_true h50, Bool.and_self, Bool.true_and])]
      simp only [Option.some.injEq, Prod.mk.injEq]
      exact ⟨by unfold digitVal; omega, trivial⟩
  | c1 :: c2 :: c3 :: b2 => simp at hlen

theorem matchYear_sound {cs rest : List Char} {y : Nat}
    (h : matchYear cs = some (y, rest)) : ∃ c, cs = c ++ rest ∧ repYear c y := by
  match cs with
  | [] => exact absurd h (by simp [matchYear])
  | [c1] => exact absurd h (by simp [matchYear])
  | [c1, c2] => exact absurd h (by simp [matchYear])
  | [c1, c2, c3] => exact absurd h (by simp [matchYear])
  | c1 :: c2 :: c3 :: c4 :: cs' =>
    rw [matchYear] at h
    split_ifs at h with h1
    · simp only [Option.some.injEq, Prod.mk.injEq] at h
      obtain ⟨rfl, rfl⟩ := h
      simp only [Bool.and_eq_true] at h1
      refine ⟨[c1, c2, c3, c4], rfl, ?_, ?_, rfl⟩
      · simp only [List.all_cons, List.all_nil, Bool.and_eq_true, and_true]
        tauto
      · simp only [natOfDigits, List.foldl]
        ring

theorem matchYear_complete {c : List Char} {y : Nat} (h : repYear c y) (t : List Char) :
    matchYear (c ++ t) = some (y, t) := by
  obtain ⟨hdig, hval, hlen⟩ := h
  match c with
  | [] => simp at hlen
  | [c1] => simp at hlen
  | [c1, c2] => simp at hlen
  | [c1, c2, c3] => simp at hlen
  | [c1, c2, c3, c4] =>
    simp only [List.all_cons, List.all_nil, Bool.and_eq_true, and_true] at hdig
    obtain ⟨h1, h2, h3, h4⟩ := hdig
    show matchYear (c1 :: c2 :: c3 :: c4 :: t) = some (y, t)
    rw [matchYear]
    rw [if_pos (by rw [h1, h2, h3, h4]; try rfl)]
    simp only [Option.some.injEq, Prod.mk.injEq]
    refine ⟨?_, trivial⟩
    simp only [natOfDigits, List.foldl] at hval
    omega
  | c1 :: c2 :: c3 :: c4 :: c5 :: c6 => simp at hlen

theorem strptimeDMY_eq_some_iff {s : String} {d m y : Nat} :
    strptimeDMY s = some (d, m, y) ↔
    ∃ a b c, s.data = a ++ '.' :: (b ++ '.' :: c) ∧ repDay a d ∧ repMonth b m ∧
      repYear c y ∧ 1 ≤ y ∧ d ≤ daysInMonth y m := by
  constructor
  · intro h
    unfold strptimeDMY at h
    split at h
    case _ d1 r1 heq1 =>
      split at h
      case _ m1 r2 heq2 =>
        split at h
        case _ y1 r3 heq3 =>
          split_ifs at h with hcond
          · simp only [Option.some.injEq, Prod.mk.injEq] at h
            obtain ⟨rfl, rfl, rfl⟩ := h
            obtain ⟨a, ha, hrepa⟩ := matchDay_sound heq1
            obtain ⟨b, hb, hrepb⟩ := matchMonth_sound heq2
            obtain ⟨c, hc, hrepc⟩ := matchYear_sound heq3
            rw [List.append_nil] at hc
            exact ⟨a, b, c, by rw [ha, hb, hc], hrepa, hrepb, hrepc, hcond.1, hcond.2⟩
        case _ => exact absurd h (by simp)
      case _ => exact absurd h (by simp)
    case _ => exact absurd h (by simp)
  · rintro ⟨a, b, c, hdata, hrepa, hrepb, hrepc, hy, hdm⟩
    have h1 := matchDay_complete hrepa (b ++ '.' :: c)
    have h2 := matchMonth_complete hrepb c
    have h3 : matchYear c = some (y, []) := by
      have h4 := matchYear_complete hrepc []
      rwa [List.append_nil] at h4
    unfold strptimeDMY
    rw [hdata]
    simp only [h1, h2, h3]
    rw [if_pos ⟨hy, hdm⟩]

/-- C4 counterexample: the non-zero-padded value "1.1.2000" is accepted by
Birthday construction (Python strptime's day and month patterns also match a
single unpadded digit), although the claim says any non-zero-padded form
fails; its length 8 shows it is not of the zero-padded two-digit-day,
two-digit-month, four-digit-year shape, which has length 10. -/
theorem birthday_unpadded_cex :
    birthdayInit "1.1.2000" = Except.ok "1.1.2000" ∧ "1.1.2000".length = 8 := by
  decide

/-- C4 (amended): for strings of ASCII characters (where the model of strptime
is exact), Birthday construction succeeds - storing the original string -
exactly when the value is day.month.year with a one- or two-digit day (value
1..31, zero padding allowed but not required), a one- or two-digit month
(value 1..12, zero padding allowed but not required) and exactly four digits
of year, the year is at least 1, and the day exists in that month of that
year; in every other case it fails with the validation error. In particular
"29.02.2000" and "01.01.2000" succeed while "29.02.2001" and "31.04.2020"
fail, but non-zero-padded forms such as "1.1.2000" succeed as well. -/
theorem birthdayInit_characterization (s : String)
    (_hascii : s.data.all (fun c => c.toNat ≤ 127) = true) :
    (birthdayInit s = Except.ok s ↔
      ∃ d m y a b c, s.data = a ++ '.' :: (b ++ '.' :: c) ∧ repDay a d ∧ repMonth b m ∧
        repYear c y ∧ 1 ≤ y ∧ d ≤ daysInMonth y m) ∧
    (birthdayInit s ≠ Except.ok s → birthdayInit s = Except.error PyErr.birthdayValidation) := by
  constructor
  · constructor
    · intro h
      unfold birthdayInit at h
      split at h
      case _ r heq =>
        obtain ⟨d, m, y⟩ := r
        obtain ⟨a, b, c, hdata, hrd, hrm, hry, hy, hdm⟩ := strptimeDMY_eq_some_iff.mp heq
        exact ⟨d, m, y, a, b, c, hdata, hrd, hrm, hry, hy, hdm⟩
      case _ => exact absurd h (by simp)
    · rintro ⟨d, m, y, a, b, c, hdata, hrd, hrm, hry, hy, hdm⟩
      have heq : strptimeDMY s = some (d, m, y) :=
        strptimeDMY_eq_some_iff.mpr ⟨a, b, c, hdata, hrd, hrm, hry, hy, hdm⟩
      unfold birthdayInit
      rw [heq]
  · intro hne
    unfold birthdayInit at hne ⊢
    split at hne
    case _ => exact absurd rfl hne
    case _ => rfl

/-- C4 witness: the characterization applied at concrete inputs - the leap day
"29.02.2000" accepted through the success direction, "31.04.2020" rejected
through the failure direction. -/
theorem birthdayInit_characterization_witness :
    birthdayInit "29.02.2000" = Except.ok "29.02.2000" ∧
    birthdayInit "31.04.2020" = Except.error PyErr.birthdayValidation :=
  ⟨(birthdayInit_characterization "29.02.2000" (by decide)).1.mpr
      ⟨29, 2, 2000, ['2', '9'], ['0', '2'], ['2', '0', '0', '0'], by decide, by decide,
        by decide, by decide, by decide, by decide⟩,
    (birthdayInit_characterization "31.04.2020" (by decide)).2 (by decide)⟩

theorem replaceYear_fields {dt : PyDateTime} {yr : Nat} {o : PyDateTime}
    (h : replaceYear dt yr = some o) :
    o.year = yr ∧ o.month = dt.month ∧ o.day = dt.day ∧ o.tod = dt.tod := by
  unfold replaceYear at h
  split_ifs at h with hv
  obtain rfl := Option.some.inj h
  exact ⟨rfl, rfl, rfl, rfl⟩

theorem dtLe_left_midnight (t o : PyDateTime) (h0 : o.tod = 0) :
    dtLe t o ↔ (dateLt t o ∨ (dateEq t o ∧ t.tod = 0)) := by
  unfold dtLe dateLt dateEq
  omega

theorem dtLe_right_midnight (o w : PyDateTime) (h0 : o.tod = 0) :
    dtLe o w ↔ dateLe o w := by
  unfold dtLe dateLe dateLt dateEq
  omega

theorem upcomingGo_mem_iff (today nw : PyDateTime) (rs : List Record)
    (out : List (String × String)) (h : upcomingGo today nw rs = some out) (n s : String) :
    (n, s) ∈ out ↔ ∃ r ∈ rs, upcomingHit today nw r n s := by
  induction rs generalizing out with
  | nil =>
    simp only [upcomingGo, Option.some.injEq] at h
    subst h
    simp
  | cons r rest ih =>
    rw [upcomingGo] at h
    cases hb : r.birthday with
    | none =>
      simp only [hb] at h
      rw [ih out h]
      simp only [List.mem_cons, upcomingHit]
      constructor
      · rintro ⟨r2, hr2, hhit⟩
        exact ⟨r2, Or.inr hr2, hhit⟩
      · rintro ⟨r2, hr2 | hr2, hhit⟩
        · obtain ⟨-, b, d, m, y, occ, hb2, -⟩ := hhit
          rw [hr2, hb] at hb2
          exact absurd hb2 (by simp)
        · exact ⟨r2, hr2, hhit⟩
    | some b =>
      simp only [hb] at h
      cases hp : strptimeDMY b with
      | none =>
        simp only [hp] at h
        exact absurd h (by simp)
      | some trip =>
        obtain ⟨d, m, y⟩ := trip
        simp only [hp] at h
        cases hrep : replaceYear (PyDateTime.mk y m d 0) today.year with
        | none =>
          simp only [hrep] at h
          exact absurd h (by simp)
        | some occ =>
          simp only [hrep] at h
          by_cases hcond : dtLe today occ ∧ dtLe occ nw
          · rw [if_pos hcond] at h
            obtain ⟨out2, hout2, rfl⟩ := Option.map_eq_some'.mp h
            rw [List.mem_cons, ih out2 hout2]
            simp only [List.mem_cons, upcomingHit]
            constructor
            · rintro (heq | ⟨r2, hr2, hhit⟩)
              · simp only [Prod.mk.injEq] at heq
                obtain ⟨hn, hs⟩ := heq
                exact ⟨r, Or.inl rfl,
                  hn.symm, b, d, m, y, occ, hb, hp, hrep, hcond.1, hcond.2, hs⟩
              · exact ⟨r2, Or.inr hr2, hhit⟩
            · rintro ⟨r2, hr2 | hr2, hhit⟩
              · obtain ⟨hname, b2, d2, m2, y2, occ2, hb2, hp2, hrep2, h1, h2, hs⟩ := hhit
                rw [hr2, hb] at hb2
                obtain rfl := Option.some.inj hb2
                rw [hp] at hp2
                simp only [Option.some.injEq, Prod.mk.injEq] at hp2
                obtain ⟨rfl, rfl, rfl⟩ := hp2
                rw [hrep] at hrep2
                obtain rfl := Option.some.inj hrep2
                left
                rw [hr2] at hname
                rw [← hname, hs]
              · exact Or.inr ⟨r2, hr2, hhit⟩
          · rw [if_neg hcond] at h
            rw [ih out h]
            simp only [List.mem_cons, upcomingHit]
            constructor
            · rintro ⟨r2, hr2, hhit⟩
              exact ⟨r2, Or.inr hr2, hhit⟩
            · rintro ⟨r2, hr2 | hr2, hhit⟩
              · obtain ⟨hname, b2, d2, m2, y2, occ2, hb2, hp2, hrep2, h1, h2, hs⟩ := hhit
                rw [hr2, hb] at hb2
                obtain rfl := Option.some.inj hb2
                rw [hp] at hp2
                simp only [Option.some.injEq, Prod.mk.injEq] at hp2
                obtain ⟨rfl, rfl, rfl⟩ := hp2
                rw [hrep] at hrep2
                obtain rfl := Option.some.inj hrep2
                exact absurd ⟨h1, h2⟩ hcond
              · exact ⟨r2, hr2, hhit⟩

/-- C1 counterexample: today is 2024-06-01 one microsecond past midnight and
the book holds Ann with birthday 01.06.1990, whose occurrence this year,
2024-06-01, equals today at calendar-day granularity and lies inside the
inclusive day window [today, today plus 7 days]; the claim says the record is
included, yet the call returns the empty list, because the comparison uses
the full datetime and the occurrence's midnight is before the clock time. -/
theorem upcoming_today_boundary_cex :
    getUpcomingBirthdays [("Ann", Record.mk "Ann" [] (some "01.06.1990"))]
      (PyDateTime.mk 2024 6 1 1) = some [] ∧
    strptimeDMY "01.06.1990" = some (1, 6, 1990) ∧
    replaceYear (PyDateTime.mk 1990 6 1 0) 2024 = some (PyDateTime.mk 2024 6 1 0) ∧
    dateEq (PyDateTime.mk 2024 6 1 1) (PyDateTime.mk 2024 6 1 0) ∧
    dateLe (PyDateTime.mk 2024 6 1 0) (addDays 7 (PyDateTime.mk 2024 6 1 1)) := by
  decide

/-- C1 (amended): for a record with a birthday whose occurrence this year is
occ, the record is included exactly when today's full datetime is at most
occ's midnight and occ's midnight at most today plus 7 days; in calendar-day
terms, exactly when occ is strictly after today's calendar day - or on it,
but only with the clock exactly at midnight - and at most the calendar day of
today plus 7 days, so the upper bound stays inclusive while the lower bound
admits today's own day only at midnight. Stated for books whose record names
are distinct, the invariant of the dict keyed by name. -/
theorem upcoming_window_characterization
    (book : AddressBook) (today : PyDateTime) (out : List (String × String))
    (hout : getUpcomingBirthdays book today = some out)
    (hnd : ((book.map fun e => e.2).map Record.name).Nodup)
    (k : String) (r : Record) (hmem : (k, r) ∈ book)
    (b : String) (hb : r.birthday = some b)
    (d m y : Nat) (hp : strptimeDMY b = some (d, m, y))
    (occ : PyDateTime) (hocc : replaceYear (PyDateTime.mk y m d 0) today.year = some occ) :
    (∃ s, (r.name, s) ∈ out) ↔
      ((dateLt today occ ∨ (dateEq today occ ∧ today.tod = 0)) ∧
        dateLe occ (addDays 7 today)) := by
  have h0 : occ.tod = 0 := (replaceYear_fields hocc).2.2.2
  have hrv : r ∈ book.map (fun e => e.2) := List.mem_map.mpr ⟨(k, r), hmem, rfl⟩
  unfold getUpcomingBirthdays at hout
  constructor
  · rintro ⟨s, hs⟩
    obtain ⟨r2, hr2, hhit⟩ :=
      (upcomingGo_mem_iff today (addDays 7 today) _ out hout r.name s).mp hs
    unfold upcomingHit at hhit
    obtain ⟨hname, b2, d2, m2, y2, occ2, hb2, hp2, hrep2, h1, h2, -⟩ := hhit
    obtain rfl : r2 = r := List.inj_on_of_nodup_map hnd hr2 hrv hname
    rw [hb] at hb2
    obtain rfl := Option.some.inj hb2
    rw [hp] at hp2
    simp only [Option.some.injEq, Prod.mk.injEq] at hp2
    obtain ⟨rfl, rfl, rfl⟩ := hp2
    rw [hocc] at hrep2
    obtain rfl := Option.some.inj hrep2
    exact ⟨(dtLe_left_midnight today occ h0).mp h1,
      (dtLe_right_midnight occ (addDays 7 today) h0).mp h2⟩
  · rintro ⟨hc1, hc2⟩
    refine ⟨strftimeDMY occ, (upcomingGo_mem_iff today (addDays 7 today) _ out hout
      r.name (strftimeDMY occ)).mpr ⟨r, hrv, ?_⟩⟩
    unfold upcomingHit
    exact ⟨rfl, b, d, m, y, occ, hb, hp, hocc,
      (dtLe_left_midnight today occ h0).mpr hc1,
      (dtLe_right_midnight occ (addDays 7 today) h0).mpr hc2, rfl⟩

/-- C1 witness: the characterization applied at a concrete book and a concrete
midnight datetime, where Ann's occurrence 2024-06-05 lies in the window. -/
theorem upcoming_window_characterization_witness :
    getUpcomingBirthdays [("Ann", Record.mk "Ann" [] (some "05.06.1990"))]
      (PyDateTime.mk 2024 6 1 0) = some [("Ann", "05.06.2024")] ∧
    ((∃ s, ("Ann", s) ∈ [("Ann", "05.06.2024")]) ↔
      ((dateLt (PyDateTime.mk 2024 6 1 0) (PyDateTime.mk 2024 6 5 0) ∨
        (dateEq (PyDateTime.mk 2024 6 1 0) (PyDateTime.mk 2024 6 5 0) ∧
          (PyDateTime.mk 2024 6 1 0).tod = 0)) ∧
        dateLe (PyDateTime.mk 2024 6 5 0) (addDays 7 (PyDateTime.mk 2024 6 1 0)))) :=
  ⟨by decide,
    upcoming_window_characterization
      [("Ann", Record.mk "Ann" [] (some "05.06.1990"))] (PyDateTime.mk 2024 6 1 0)
      [("Ann", "05.06.2024")] (by decide) (by decide)
      "Ann" (Record.mk "Ann" [] (some "05.06.1990")) (by decide)
      "05.06.1990" (by decide) 5 6 1990 (by decide) (PyDateTime.mk 2024 6 5 0) (by decide)⟩

/-- C6: get_upcoming_birthdays performs no year wraparound: whenever a
record's occurrence this year falls on a calendar day strictly before today's
- as for a late-December birthday checked near the end of December - the
record is not in the output, whatever the distance to the next-year
occurrence. Stated for books whose record names are distinct. -/
theorem upcoming_no_wraparound
    (book : AddressBook) (today : PyDateTime) (out : List (String × String))
    (hout : getUpcomingBirthdays book today = some out)
    (hnd : ((book.map fun e => e.2).map Record.name).Nodup)
    (k : String) (r : Record) (hmem : (k, r) ∈ book)
    (b : String) (hb : r.birthday = some b)
    (d m y : Nat) (hp : strptimeDMY b = some (d, m, y))
    (occ : PyDateTime) (hocc : replaceYear (PyDateTime.mk y m d 0) today.year = some occ)
    (hbefore : dateLt occ today) :
    ¬ ∃ s, (r.name, s) ∈ out := by
  have h0 : occ.tod = 0 := (replaceYear_fields hocc).2.2.2
  have hrv : r ∈ book.map (fun e => e.2) := List.mem_map.mpr ⟨(k, r), hmem, rfl⟩
  unfold getUpcomingBirthdays at hout
  rintro ⟨s, hs⟩
  obtain ⟨r2, hr2, hhit⟩ :=
    (upcomingGo_mem_iff today (addDays 7 today) _ out hout r.name s).mp hs
  unfold upcomingHit at hhit
  obtain ⟨hname, b2, d2, m2, y2, occ2, hb2, hp2, hrep2, h1, h2, -⟩ := hhit
  obtain rfl : r2 = r := List.inj_on_of_nodup_map hnd hr2 hrv hname
  rw [hb] at hb2
  obtain rfl := Option.some.inj hb2
  rw [hp] at hp2
  simp only [Option.some.injEq, Prod.mk.injEq] at hp2
  obtain ⟨rfl, rfl, rfl⟩ := hp2
  rw [hocc] at hrep2
  obtain rfl := Option.some.inj hrep2
  unfold dtLe at h1
  unfold dateLt at hbefore
  omega

/-- C6 witness: the spec's example - today 2024-12-30, birthday 29.12 - via
the theorem: the occurrence 2024-12-29 is the day before today, the call
returns the empty list, and the record is not in it. -/
theorem upcoming_no_wraparound_witness :
    getUpcomingBirthdays [("Bob", Record.mk "Bob" [] (some "29.12.1995"))]
      (PyDateTime.mk 2024 12 30 0) = some [] ∧
    ¬ ∃ s, ("Bob", s) ∈ ([] : List (String × String)) :=
  ⟨by decide,
    upcoming_no_wraparound
      [("Bob", Record.mk "Bob" [] (some "29.12.1995"))] (PyDateTime.mk 2024 12 30 0)
      [] (by decide) (by decide)
      "Bob" (Record.mk "Bob" [] (some "29.12.1995")) (by decide)
      "29.12.1995" (by decide) 29 12 1995 (by decide) (PyDateTime.mk 2024 12 29 0)
      (by decide) (by decide)⟩
